import Mathlib

/-!
Verification of the orchestration core of `install-tui.py` (dotfiles TUI
installer): the machine registry, the process runner (local shell and remote
secure-shell invocation shapes), and the three deployment sequencers (local,
remote Unix, remote Windows).

The presentation layer (textual screens) is excluded; the embedded functions
are `load_machines`, `run_setup_function`, `run_remote_command`,
`run_windows_setup`, `ProgressScreen._install_worker` (as `install_worker`),
`RemoteProgressScreen._deploy_worker` (as `deploy_worker`), and the static
`PROFILES` catalog.  Subprocess spawning is modelled by a `World` oracle:
`spawn argv = none` models `subprocess.Popen` raising `FileNotFoundError`,
`spawn argv = some (exitCode, outputLines)` models a spawned process.
Log-line sinks are modelled by returning the list of emitted lines where a
claim depends on them; purely decorative log lines are omitted.
-/

namespace Installer

/-- One entry of `machines.yaml`: `machine.get("user", "")`, `machine.get("host", "")`
and `machine.get("password")` in the source.  A missing `user`/`host` key reads as
`""` through `.get`, so absent and empty collapse to `""` here exactly as in the
Python code. -/
structure Machine where
  user : String
  host : String
  password : Option String
deriving DecidableEq

/-- The external environment of one run.  `spawn` is `subprocess.Popen` on an
argv: `none` models a raised `FileNotFoundError` (executable not locatable),
`some (code, lines)` a process that terminates with exit code `code` after
emitting `lines` on combined stdout/stderr.  `rsyncExit` is the exit code of
the shell-spawned `rsync` synchronization step of the remote Unix deploy. -/
structure World where
  spawn : List String → Option (Nat × List String)
  rsyncExit : Nat

/-! ## Result maps (Python `dict` with insertion order) -/

/-- Python `results[k] = v`: update the first (and only) occurrence in place,
otherwise append.  Insertion order is preserved, as for a Python `dict`. -/
def dictInsert : List (String × Bool) → String → Bool → List (String × Bool)
  | [], k, v => [(k, v)]
  | p :: rest, k, v => if p.1 = k then (k, v) :: rest else p :: dictInsert rest k v

/-- The keys of a result map, in insertion order. -/
def dictKeys (m : List (String × Bool)) : List String := m.map Prod.fst

/-- Python `results.get(k)`. -/
def dictLookup : List (String × Bool) → String → Option Bool
  | [], _ => none
  | p :: rest, k => if p.1 = k then some p.2 else dictLookup rest k

theorem dictInsert_of_not_mem (m : List (String × Bool)) (k : String) (v : Bool)
    (h : k ∉ dictKeys m) : dictInsert m k v = m ++ [(k, v)] := by
  induction m with
  | nil => rfl
  | cons p rest ih =>
    simp only [dictKeys, List.map_cons, List.mem_cons] at h
    push_neg at h
    rw [dictInsert, if_neg (fun hc => h.1 hc.symm), ih (by simpa [dictKeys] using h.2)]
    rfl

theorem dictKeys_append (m₁ m₂ : List (String × Bool)) :
    dictKeys (m₁ ++ m₂) = dictKeys m₁ ++ dictKeys m₂ := by
  simp [dictKeys]

theorem dictLookup_dictInsert_self (m : List (String × Bool)) (k : String) (v : Bool) :
    dictLookup (dictInsert m k v) k = some v := by
  induction m with
  | nil => simp [dictInsert, dictLookup]
  | cons p rest ih =>
    by_cases h : p.1 = k
    · simp [dictInsert, dictLookup, h]
    · simp [dictInsert, dictLookup, h, ih]

theorem dictLookup_dictInsert_of_ne (m : List (String × Bool)) (k c : String) (v : Bool)
    (h : c ≠ k) : dictLookup (dictInsert m k v) c = dictLookup m c := by
  have hkc : ¬k = c := fun hc => h hc.symm
  induction m with
  | nil => simp [dictInsert, dictLookup, hkc]
  | cons p rest ih =>
    by_cases hp : p.1 = k
    · subst hp
      simp [dictInsert, dictLookup, hkc]
    · rw [dictInsert, if_neg hp, dictLookup, dictLookup]
      by_cases hc : p.1 = c
      · simp [hc]
      · simp [hc, ih]

theorem dictKeys_map_pair (f : String → Bool) (l : List String) :
    dictKeys (l.map (fun c => (c, f c))) = l := by
  induction l with
  | nil => rfl
  | cons c rest ih => simp [dictKeys] at ih ⊢; exact ih

/-! ## Process runner -/

/-- The per-mode flag assignments of `run_setup_function` (source lines 163-168). -/
def modeSetup (mode : String) : String :=
  if mode = "config" then "USE_SUDO=false; UPDATE_MODE=false"
  else if mode = "update" then "USE_SUDO=true; UPDATE_MODE=true"
  else "USE_SUDO=true; UPDATE_MODE=false"

/-- The generated local shell snippet of `run_setup_function` (source lines
170-178); whitespace is collapsed, content and order are preserved. -/
def setupScript (dir component mode : String) : String :=
  "set -e; source " ++ dir ++ "/lib/utils.sh; source " ++ dir ++ "/lib/os.sh; source "
    ++ dir ++ "/lib/packages.sh; " ++ modeSetup mode ++ "; detect_os; setup_" ++ component

/-- `run_setup_function` (source lines 161-192).  The local invocation shape of
the process runner: spawn `bash -c script`, stream its lines, succeed iff the
exit code is 0.  There is NO `try`/`except` in the source, so a spawn failure
(`FileNotFoundError`) propagates to the caller; this is modelled by the
`Except.error` return. -/
def run_setup_function (w : World) (dir component mode : String) :
    Except String (Bool × List String) :=
  match w.spawn ["bash", "-c", setupScript dir component mode] with
  | some r => Except.ok (r.1 == 0, r.2)
  | none => Except.error "FileNotFoundError: bash"

/-- The ssh argv built by `run_remote_command` and `run_windows_setup.run_ssh`
(source lines 207-212, 244-248): `sshpass -p <pw> ssh ...` when a password is
configured, plain `ssh ...` otherwise. -/
def sshCommand (m : Machine) (command : String) : List String :=
  match m.password with
  | some pw =>
      ["sshpass", "-p", pw, "ssh", "-o", "StrictHostKeyChecking=no",
       m.user ++ "@" ++ m.host, command]
  | none =>
      ["ssh", "-o", "StrictHostKeyChecking=no", m.user ++ "@" ++ m.host, command]

/-- The single explanatory line emitted by `run_remote_command` when the spawn
raises `FileNotFoundError` (source lines 227-231): it names the missing
dependency - `sshpass` when a password is configured, `ssh` otherwise. -/
def missingDependencyLine (m : Machine) : String :=
  match m.password with
  | some _ => "[red]Error: sshpass not installed. Run: brew install sshpass[/red]"
  | none => "[red]Error: SSH not available[/red]"

/-- `run_remote_command` (source lines 195-232).  Returns
`(success, emitted log lines, attempted spawns)`.  An empty/missing user or
host is rejected before any spawn; a spawn `FileNotFoundError` is caught and
converted to `(false, one explanatory line)`. -/
def run_remote_command (w : World) (m : Machine) (command : String) :
    Bool × List String × List (List String) :=
  if m.user = "" ∨ m.host = "" then
    (false, ["[red]Error: Invalid machine config[/red]"], [])
  else
    match w.spawn (sshCommand m command) with
    | some r => (r.1 == 0, r.2, [sshCommand m command])
    | none => (false, [missingDependencyLine m], [sshCommand m command])

/-! ## Local install sequencer (`ProgressScreen._install_worker`, lines 796-837) -/

/-- The boolean outcome the local sequencer records for one component: the
result of `run_setup_function` when the spawn succeeds. -/
def setupOutcome (w : World) (dir component mode : String) : Bool :=
  match w.spawn ["bash", "-c", setupScript dir component mode] with
  | some r => r.1 == 0
  | none => false

/-- The per-component loop of `_install_worker` (source lines 810-831),
threading `(results, invocation trace)`.  A `run_setup_function` exception
propagates out of the loop, exactly as an uncaught Python exception would. -/
def install_worker_loop (w : World) (dir mode : String) :
    List (String × Bool) × List String → List String →
    Except String (List (String × Bool) × List String)
  | acc, [] => Except.ok acc
  | acc, component :: rest =>
    match run_setup_function w dir component mode with
    | Except.error e => Except.error e
    | Except.ok r =>
        install_worker_loop w dir mode (dictInsert acc.1 component r.1, acc.2 ++ [component]) rest

/-- `ProgressScreen._install_worker` (source lines 796-837): invoke
`run_setup_function` once per selected component in the caller-supplied order,
recording `results[component] = success` each time, never stopping on a
`false` outcome.  Returns `(result map, invocation trace)`. -/
def install_worker (w : World) (dir mode : String) (components : List String) :
    Except String (List (String × Bool) × List String) :=
  install_worker_loop w dir mode ([], []) components

theorem install_worker_loop_eq (w : World) (dir mode : String)
    (hspawn : ∀ args, (w.spawn args).isSome = true) :
    ∀ (comps : List String) (acc : List (String × Bool) × List String),
      comps.Nodup → (∀ c ∈ comps, c ∉ dictKeys acc.1) →
      install_worker_loop w dir mode acc comps =
        Except.ok (acc.1 ++ comps.map (fun c => (c, setupOutcome w dir c mode)), acc.2 ++ comps) := by
  intro comps
  induction comps with
  | nil => intro acc _ _; simp [install_worker_loop]
  | cons c rest ih =>
    intro acc hnd hfresh
    obtain ⟨hc_rest, hnd_rest⟩ := List.nodup_cons.mp hnd
    obtain ⟨r, hr⟩ := Option.isSome_iff_exists.mp (hspawn ["bash", "-c", setupScript dir c mode])
    have hrun : run_setup_function w dir c mode = Except.ok (r.1 == 0, r.2) := by
      unfold run_setup_function; rw [hr]
    have hout : setupOutcome w dir c mode = (r.1 == 0) := by
      unfold setupOutcome; rw [hr]
    rw [install_worker_loop, hrun]
    show install_worker_loop w dir mode (dictInsert acc.1 c (r.1 == 0), acc.2 ++ [c]) rest = _
    rw [dictInsert_of_not_mem _ _ _ (hfresh c (List.mem_cons_self c rest))]
    rw [ih (acc.1 ++ [(c, r.1 == 0)], acc.2 ++ [c]) hnd_rest
      (by
        intro c' hc'
        rw [dictKeys_append]
        intro hmem
        rcases List.mem_append.mp hmem with hm | hm
        · exact hfresh c' (List.mem_cons_of_mem c hc') hm
        · simp only [dictKeys, List.map_cons, List.map_nil, List.mem_singleton] at hm
          exact hc_rest (hm ▸ hc'))]
    simp [hout, List.append_assoc]

/-! ## Remote Unix deploy sequencer (`RemoteProgressScreen._deploy_worker`, lines 869-950) -/

/-- The remote command string built per component by `_deploy_worker` (source
lines 922-929); whitespace is collapsed, content and order are preserved. -/
def remoteSetupCmd (component : String) : String :=
  "cd ~/dotfiles && source lib/utils.sh && source lib/os.sh && source lib/packages.sh && detect_os && setup_"
    ++ component

/-- The boolean outcome the remote Unix sequencer records for one component. -/
def remoteOutcome (w : World) (m : Machine) (component : String) : Bool :=
  (run_remote_command w m (remoteSetupCmd component)).1

/-- The per-component loop of `_deploy_worker` (source lines 913-944),
threading `(results, attempted remote spawns)`.  `run_remote_command` never
raises, so the loop is total. -/
def deploy_worker_loop (w : World) (m : Machine) :
    List (String × Bool) × List (List String) → List String →
    List (String × Bool) × List (List String)
  | acc, [] => acc
  | acc, component :: rest =>
    let r := run_remote_command w m (remoteSetupCmd component)
    deploy_worker_loop w m (dictInsert acc.1 component r.1, acc.2 ++ r.2.2) rest

/-- `RemoteProgressScreen._deploy_worker` (source lines 869-950): first run the
rsync synchronization step; if its exit code is non-zero, return the sentinel
result map `{"sync": false}` at once, with no remote command attempted.
Otherwise invoke `run_remote_command` once per component in order, recording
each outcome.  Returns `(result map, attempted remote spawns)`. -/
def deploy_worker (w : World) (m : Machine) (components : List String) :
    List (String × Bool) × List (List String) :=
  if w.rsyncExit ≠ 0 then ([("sync", false)], [])
  else deploy_worker_loop w m ([], []) components

theorem deploy_worker_loop_fst (w : World) (m : Machine) :
    ∀ (comps : List String) (acc : List (String × Bool) × List (List String)),
      comps.Nodup → (∀ c ∈ comps, c ∉ dictKeys acc.1) →
      (deploy_worker_loop w m acc comps).1 =
        acc.1 ++ comps.map (fun c => (c, remoteOutcome w m c)) := by
  intro comps
  induction comps with
  | nil => intro acc _ _; simp [deploy_worker_loop]
  | cons c rest ih =>
    intro acc hnd hfresh
    obtain ⟨hc_rest, hnd_rest⟩ := List.nodup_cons.mp hnd
    rw [deploy_worker_loop]
    show (deploy_worker_loop w m
      (dictInsert acc.1 c (remoteOutcome w m c), _) rest).1 = _
    rw [dictInsert_of_not_mem _ _ _ (hfresh c (List.mem_cons_self c rest))]
    rw [ih _ hnd_rest
      (by
        intro c' hc'
        rw [dictKeys_append]
        intro hmem
        rcases List.mem_append.mp hmem with hm | hm
        · exact hfresh c' (List.mem_cons_of_mem c hc') hm
        · simp only [dictKeys, List.map_cons, List.map_nil, List.mem_singleton] at hm
          exact hc_rest (hm ▸ hc'))]
    simp [List.append_assoc]

/-! ## Remote Windows deploy sequencer (`run_windows_setup`, lines 235-371) -/

/-- One remote command issued by a Windows component bundle, abstracted to its
shape: every one of these is routed through `run_ssh`/`run_ps` (source lines
244-266) or `scp` and only its success/failure matters to the sequencer. -/
inductive WinCmd
  /-- `Get-AppxPackage ... | Remove-AppxPackage ...` for one bloatware app. -/
  | removeAppx (app : String)
  /-- The i-th registry command of the `telemetry` bundle (source lines 298-307). -/
  | telemetryReg (i : Nat)
  /-- `powercfg -h off` (source line 313). -/
  | hibernateOff
  /-- The i-th cursor registry command of the `system` bundle (source lines 316-318). -/
  | cursorReg (i : Nat)
  /-- `winget install Google.Chrome ...` (source line 324). -/
  | wingetChrome
  /-- `winget install Microsoft.VisualStudioCode ...` (source line 334). -/
  | wingetVSCode
  /-- `New-Item -ItemType Directory ... Code\User` via ssh (source line 342). -/
  | mkUserDir
  /-- `scp settings.json ...` (source line 350). -/
  | scpSettings
  /-- `scp keybindings.json ...` (source line 351). -/
  | scpKeybindings
  /-- `code.cmd --install-extension <ext> --force` (source line 366). -/
  | installExt (ext : String)
deriving DecidableEq

/-- The built-in bloatware list of `run_windows_setup` (source lines 269-278). -/
def bloatware_apps : List String :=
  ["Clipchamp.Clipchamp", "Microsoft.549981C3F5F10", "Microsoft.BingNews",
   "Microsoft.BingWeather", "Microsoft.BingFinance", "Microsoft.BingSports",
   "Microsoft.MicrosoftSolitaireCollection", "Microsoft.SkypeApp",
   "Microsoft.MixedReality.Portal", "Microsoft.YourPhone", "Microsoft.ZuneMusic",
   "Microsoft.ZuneVideo", "Microsoft.Copilot", "Microsoft.WindowsFeedbackHub",
   "Facebook", "Instagram", "TikTok", "Twitter", "LinkedIn",
   "king.com.CandyCrush", "king.com.CandyCrushSaga", "Netflix", "Spotify",
   "Amazon.com.Amazon", "McAfee", "Duolingo"]

/-- Python whitespace as stripped by `str.strip()`. -/
def pySpace (c : Char) : Bool :=
  c == ' ' || c == '\t' || c == '\n' || c == '\x0b' || c == '\x0c' || c == '\r'

/-- Strip `pySpace` characters from both ends of a character list. -/
def trimChars (l : List Char) : List Char :=
  ((l.dropWhile pySpace).reverse.dropWhile pySpace).reverse

/-- Python `line.strip()`. -/
def pyStrip (s : String) : String := String.mk (trimChars s.data)

/-- Python `line.split('#')[0]`: the prefix before the first hash mark. -/
def pySplitHash (s : String) : String :=
  String.mk (s.data.takeWhile (fun c => !(c == '#')))

/-- Python `s.startswith('#')`. -/
def startsWithHash (s : String) : Bool :=
  match s.data with
  | [] => false
  | c :: _ => c == '#'

/-- The filter of the extensions-list comprehension (source line 363):
`line.strip() and not line.strip().startswith('#')`. -/
def validLine (l : String) : Bool :=
  !(pyStrip l == "") && !(startsWithHash (pyStrip l))

/-- A line that `strip()`s to the empty string. -/
def isBlankLine (l : String) : Bool := pyStrip l == ""

/-- A line whose `strip()` starts with a hash mark. -/
def isCommentLine (l : String) : Bool := startsWithHash (pyStrip l)

/-- The extensions-list comprehension of the `vscode` bundle (source lines
360-364): keep non-blank lines not starting with a hash mark, in file order,
each reduced to `line.split('#')[0].strip()`. -/
def parseExtensions (lines : List String) : List String :=
  (lines.filter validLine).map (fun l => pyStrip (pySplitHash l))

/-- The body of one iteration of the `run_windows_setup` component loop
(source lines 285-369): the recorded outcome (`none` when the branch records
nothing, i.e. the component is not one of the five bundles) and the remote
commands issued, in order.  `exec` gives each issued command's
success/failure; `extFile` is the content of `config/vscode/extensions.txt`
(`none` when the file does not exist). -/
def winComponentStep (exec : WinCmd → Bool) (extFile : Option (List String))
    (component : String) : Option Bool × List WinCmd :=
  if component = "debloat" then
    (some true, bloatware_apps.map WinCmd.removeAppx)
  else if component = "telemetry" then
    (some true, (List.range 6).map WinCmd.telemetryReg)
  else if component = "system" then
    (some true, WinCmd.hibernateOff :: (List.range 3).map WinCmd.cursorReg)
  else if component = "chrome" then
    let success := exec WinCmd.wingetChrome
    (some (if success then success else true), [WinCmd.wingetChrome])
  else if component = "vscode" then
    let extCmds :=
      match extFile with
      | none => []
      | some lines => ((parseExtensions lines).take 10).map WinCmd.installExt
    (some true,
     [WinCmd.wingetVSCode, WinCmd.mkUserDir, WinCmd.scpSettings, WinCmd.scpKeybindings] ++ extCmds)
  else (none, [])

/-- The component loop of `run_windows_setup` (source lines 280-369),
threading `(results, issued commands)`. -/
def run_windows_setup_loop (exec : WinCmd → Bool) (extFile : Option (List String)) :
    List (String × Bool) × List WinCmd → List String →
    List (String × Bool) × List WinCmd
  | acc, [] => acc
  | acc, component :: rest =>
    let s := winComponentStep exec extFile component
    run_windows_setup_loop exec extFile
      (match s.1 with
       | some b => dictInsert acc.1 component b
       | none => acc.1,
       acc.2 ++ s.2) rest

/-- `run_windows_setup` (source lines 235-371): run each selected Windows
bundle in order over the remote scripting shell, accumulating per-component
outcomes.  Returns `(result map, issued remote commands)`.  The machine only
shapes the command strings, which are abstracted into `WinCmd`, so it does not
appear here. -/
def run_windows_setup (exec : WinCmd → Bool) (extFile : Option (List String))
    (components : List String) : List (String × Bool) × List WinCmd :=
  run_windows_setup_loop exec extFile ([], []) components

/-- The five Windows component identifiers of `WINDOWS_COMPONENTS`
(source lines 99-105), the only selectable inputs of the Windows sequencer. -/
def winComponentIds : List String := ["debloat", "telemetry", "system", "chrome", "vscode"]

theorem winStep_isSome (exec : WinCmd → Bool) (extFile : Option (List String))
    (c : String) (h : c ∈ winComponentIds) :
    ∃ b, (winComponentStep exec extFile c).1 = some b := by
  simp only [winComponentIds, List.mem_cons, List.not_mem_nil, or_false] at h
  rcases h with rfl | rfl | rfl | rfl | rfl
  · exact ⟨true, rfl⟩
  · exact ⟨true, rfl⟩
  · exact ⟨true, rfl⟩
  · exact ⟨_, rfl⟩
  · exact ⟨true, rfl⟩

theorem win_loop_lookup (exec : WinCmd → Bool) (extFile : Option (List String))
    (c : String) (b : Bool) (hstep : (winComponentStep exec extFile c).1 = some b) :
    ∀ (comps : List String) (acc : List (String × Bool) × List WinCmd),
      (c ∈ comps ∨ dictLookup acc.1 c = some b) →
      dictLookup (run_windows_setup_loop exec extFile acc comps).1 c = some b := by
  intro comps
  induction comps with
  | nil =>
    intro acc h
    rcases h with h | h
    · exact absurd h (List.not_mem_nil c)
    · simpa [run_windows_setup_loop] using h
  | cons c' rest ih =>
    intro acc h
    rw [run_windows_setup_loop]
    by_cases hcc : c' = c
    · subst hcc
      rw [hstep]
      exact ih _ (Or.inr (dictLookup_dictInsert_self acc.1 c' b))
    · have hnext : c ∈ rest ∨
          dictLookup (match (winComponentStep exec extFile c').1 with
            | some b' => dictInsert acc.1 c' b'
            | none => acc.1) c = some b := by
        rcases h with h | h
        · rcases List.mem_cons.mp h with h | h
          · exact absurd h.symm hcc
          · exact Or.inl h
        · right
          cases hs : (winComponentStep exec extFile c').1 with
          | none => exact h
          | some b' => rw [dictLookup_dictInsert_of_ne _ _ _ _ (fun hc => hcc hc.symm)]; exact h
      cases hs : (winComponentStep exec extFile c').1 with
      | none => rw [hs] at hnext; exact ih _ hnext
      | some b' => rw [hs] at hnext; exact ih _ hnext

theorem win_loop_keys (exec : WinCmd → Bool) (extFile : Option (List String)) :
    ∀ (comps : List String) (acc : List (String × Bool) × List WinCmd),
      comps.Nodup → (∀ c ∈ comps, c ∈ winComponentIds) →
      (∀ c ∈ comps, c ∉ dictKeys acc.1) →
      dictKeys (run_windows_setup_loop exec extFile acc comps).1 = dictKeys acc.1 ++ comps := by
  intro comps
  induction comps with
  | nil => intro acc _ _ _; simp [run_windows_setup_loop]
  | cons c rest ih =>
    intro acc hnd hknown hfresh
    obtain ⟨hc_rest, hnd_rest⟩ := List.nodup_cons.mp hnd
    obtain ⟨b, hb⟩ := winStep_isSome exec extFile c (hknown c (List.mem_cons_self c rest))
    rw [run_windows_setup_loop, hb]
    show dictKeys (run_windows_setup_loop exec extFile
      (dictInsert acc.1 c b, acc.2 ++ (winComponentStep exec extFile c).2) rest).1 = _
    rw [dictInsert_of_not_mem _ _ _ (hfresh c (List.mem_cons_self c rest))]
    rw [ih _ hnd_rest (fun c' hc' => hknown c' (List.mem_cons_of_mem c hc'))
      (by
        intro c' hc'
        rw [dictKeys_append]
        intro hmem
        rcases List.mem_append.mp hmem with hm | hm
        · exact hfresh c' (List.mem_cons_of_mem c hc') hm
        · simp only [dictKeys, List.map_cons, List.map_nil, List.mem_singleton] at hm
          exact hc_rest (hm ▸ hc'))]
    rw [dictKeys_append]
    simp [dictKeys, List.append_assoc]

/-! ## Component catalog and profiles (source lines 71-111) -/

/-- One entry of the `PROFILES` dict (source lines 71-87). -/
structure Profile where
  name : String
  description : String
  components : List String
deriving DecidableEq

/-- The static `PROFILES` catalog (source lines 71-87), in declaration order. -/
def PROFILES : List (String × Profile) :=
  [("minimal",
    { name := "Minimal",
      description := "Essential shell + git config only",
      components := ["zsh", "git", "editorconfig"] }),
   ("medium",
    { name := "Medium",
      description := "Developer essentials without IDE configs",
      components := ["zsh", "vim", "tmux", "git", "editorconfig"] }),
   ("full",
    { name := "Full (Recommended)",
      description := "Complete setup with all tools",
      components := ["zsh", "vim", "tmux", "git", "vscode", "claude", "editorconfig"] })]

/-- `PROFILES[profile]["components"]` (source lines 553, 697); unknown keys are
a programming error in the source (a `KeyError`), modelled as `none`. -/
def profileComponents (k : String) : Option (List String) :=
  (PROFILES.find? (fun p => p.1 == k)).map (fun p => p.2.components)

/-- Boolean set inclusion on component lists. -/
def subsetB (a b : List String) : Bool := a.all (fun c => b.contains c)

/-! ## Machine registry (`load_machines`, source lines 144-158) -/

/-- What `yaml.safe_load` produced: a non-mapping value (on which `.get`
raises, caught by the blanket `except`), or a mapping with an optional
`machines` entry. -/
inductive YamlData
  /-- The document parsed to a scalar or list: `data.get` raises. -/
  | nonMapping
  /-- The document parsed to a mapping; `machines` is its optional entry. -/
  | mapping (machines : Option (List (String × Machine)))

/-- The environment `load_machines` runs in: whether the `yaml` import
succeeded, whether `machines.yaml` exists, and the outcome of opening and
parsing it (`Except.error` models any raised exception - unreadable file or
malformed document; `Except.ok none` models an empty document, for which
`safe_load` returns `None`). -/
structure YamlEnv where
  yamlAvailable : Bool
  fileExists : Bool
  readResult : Except Unit (Option YamlData)

/-- `load_machines` (source lines 144-158).  Total by construction: every
failure path of the source (no yaml module, missing file, raised exception,
falsy or non-mapping document, missing `machines` key) returns the empty
mapping instead of raising. -/
def load_machines (env : YamlEnv) : List (String × Machine) :=
  if env.yamlAvailable = false then []
  else if env.fileExists = false then []
  else
    match env.readResult with
    | Except.error _ => []
    | Except.ok none => []
    | Except.ok (some YamlData.nonMapping) => []
    | Except.ok (some (YamlData.mapping none)) => []
    | Except.ok (some (YamlData.mapping (some ms))) => ms

/-! ## Counting extension-install commands -/

/-- Whether a command is an editor extension install. -/
def WinCmd.isInstall : WinCmd → Bool
  | WinCmd.installExt _ => true
  | _ => false

/-- How many extension-install commands a command trace contains. -/
def countInstallExt (l : List WinCmd) : Nat := (l.filter WinCmd.isInstall).length

theorem line_class (l : String) :
    (if validLine l then 1 else 0) + (if isBlankLine l then 1 else 0)
      + (if isCommentLine l then 1 else 0) = 1 := by
  unfold validLine isBlankLine isCommentLine
  cases hb : (pyStrip l == "") with
  | true =>
    have he : pyStrip l = "" := eq_of_beq hb
    rw [he]
    rfl
  | false => cases hc : startsWithHash (pyStrip l) <;> simp [hb, hc]

theorem count_classes (lines : List String) :
    lines.countP validLine + lines.countP isBlankLine + lines.countP isCommentLine
      = lines.length := by
  induction lines with
  | nil => rfl
  | cons l rest ih =>
    have hl := line_class l
    rw [List.countP_cons, List.countP_cons, List.countP_cons, List.length_cons]
    omega

theorem parseExtensions_length (lines : List String) :
    (parseExtensions lines).length = lines.countP validLine := by
  unfold parseExtensions
  rw [List.length_map, ← List.countP_eq_length_filter]

/-! ## Concrete fixtures for witnesses and counterexamples -/

/-- A world where every spawn succeeds with exit code 0 and the rsync step
succeeds. -/
def okWorld : World := { spawn := fun _ => some (0, []), rsyncExit := 0 }

/-- A world where every spawn succeeds but the rsync step exits non-zero. -/
def failSyncWorld : World := { spawn := fun _ => some (0, []), rsyncExit := 1 }

/-- A world where no executable can be located: every spawn raises. -/
def noSpawnWorld : World := { spawn := fun _ => none, rsyncExit := 0 }

/-- A key-authenticated machine. -/
def mach1 : Machine := { user := "alice", host := "box", password := none }

/-- A password-authenticated machine. -/
def machPw : Machine := { user := "alice", host := "box", password := some "pw" }

/-- A machine record with an empty (or missing) user field. -/
def machNoUser : Machine := { user := "", host := "box", password := none }

/-- An oracle under which every remote command reports success. -/
def execTrue : WinCmd → Bool := fun _ => true

/-- An oracle under which every remote command reports failure. -/
def execFalse : WinCmd → Bool := fun _ => false

/-- An extensions list with 12 lines: 2 comment lines, 1 blank line and 9
installable entries. -/
def extFile12 : List String :=
  ["ms-python.python",
   "# comment one",
   "esbenp.prettier-vscode",
   "dbaeumer.vscode-eslint",
   "",
   "eamodio.gitlens",
   "# comment two",
   "golang.go",
   "rust-lang.rust-analyzer",
   "ms-azuretools.vscode-docker",
   "redhat.vscode-yaml",
   "vscodevim.vim"]

/-! ## Claim C1 -/

/-- C1: for every remote Unix deployment whose rsync synchronization step
exits non-zero, `_deploy_worker` returns the result map that is exactly
`{"sync": false}` and attempts no remote command for any component of the
selection (the spawn trace is empty, so the process runner is never
invoked). -/
theorem deploy_sync_failure (w : World) (m : Machine) (components : List String)
    (h : w.rsyncExit ≠ 0) :
    deploy_worker w m components = ([("sync", false)], []) := by
  unfold deploy_worker
  rw [if_pos h]

/-- Witness for C1 at a concrete failing world and selection. -/
theorem deploy_sync_failure_witness :
    deploy_worker failSyncWorld mach1 ["zsh", "vim", "git"] = ([("sync", false)], []) :=
  deploy_sync_failure failSyncWorld mach1 ["zsh", "vim", "git"] (by decide)

/-! ## Claim C10 -/

/-- C10: for every machine record whose user or host field is missing or empty
(both read as `""` through `dict.get`), `run_remote_command` returns `false`,
emits exactly one error line through the callback, and attempts no spawn at
all. -/
theorem run_remote_invalid_machine (w : World) (m : Machine) (command : String)
    (h : m.user = "" ∨ m.host = "") :
    run_remote_command w m command =
      (false, ["[red]Error: Invalid machine config[/red]"], []) := by
  unfold run_remote_command
  rw [if_pos h]

/-- Witness for C10 at a concrete machine with an empty user. -/
theorem run_remote_invalid_machine_witness :
    run_remote_command okWorld machNoUser "echo hi" =
      (false, ["[red]Error: Invalid machine config[/red]"], []) :=
  run_remote_invalid_machine okWorld machNoUser "echo hi" (Or.inl rfl)

/-! ## Claim C8 (corrected) -/

/-- C8 counterexample: the claim says BOTH invocation shapes of the process
runner catch a missing executable.  The local shape `run_setup_function`
(source lines 161-192) has no `try`/`except`: when `bash` cannot be located
the `FileNotFoundError` raised by `Popen` propagates to the sequencer - the
function does not return `(false, one line)`, it raises.  The embedding
surfaces the raised exception as the `Except.error` value. -/
theorem run_setup_function_counterexample :
    run_setup_function noSpawnWorld "/dots" "zsh" "full" =
      Except.error "FileNotFoundError: bash" := rfl

/-- C8 amended: only the remote secure-shell invocation shape catches a
missing executable: `run_remote_command` returns failure and emits exactly one
explanatory line naming the missing dependency (`sshpass` when a password is
configured, `ssh` otherwise); the local shell shape propagates the
exception. -/
theorem run_remote_missing_binary (w : World) (m : Machine) (command : String)
    (hu : m.user ≠ "") (hh : m.host ≠ "")
    (hmiss : w.spawn (sshCommand m command) = none) :
    run_remote_command w m command =
      (false, [missingDependencyLine m], [sshCommand m command]) := by
  unfold run_remote_command
  rw [if_neg (not_or.mpr ⟨hu, hh⟩), hmiss]

/-- Witness for the amended C8 at a concrete password-configured machine whose
`sshpass` binary is missing. -/
theorem run_remote_missing_binary_witness :
    run_remote_command noSpawnWorld machPw "echo hi" =
      (false, [missingDependencyLine machPw], [sshCommand machPw "echo hi"]) :=
  run_remote_missing_binary noSpawnWorld machPw "echo hi" (by decide) (by decide) rfl

/-! ## Claim C7 -/

/-- C7: `load_machines` returns the empty mapping whenever the yaml module is
unavailable, the configuration file is absent, or opening/parsing it raises
(unreadable or malformed file), or the document is not a mapping; and it never
raises to its caller - the embedding is a total function into a plain mapping
because every exception of the source is caught inside it. -/
theorem load_machines_fail_open (env : YamlEnv)
    (h : env.yamlAvailable = false ∨ env.fileExists = false
      ∨ env.readResult = Except.error ()
      ∨ env.readResult = Except.ok (some YamlData.nonMapping)) :
    load_machines env = [] := by
  unfold load_machines
  rcases h with h | h | h | h
  · rw [if_pos h]
  · rw [h]
    by_cases hy : env.yamlAvailable = false
    · rw [if_pos hy]
    · rw [if_neg hy, if_pos rfl]
  · by_cases hy : env.yamlAvailable = false
    · rw [if_pos hy]
    · rw [if_neg hy]
      by_cases hf : env.fileExists = false
      · rw [if_pos hf]
      · rw [if_neg hf, h]
  · by_cases hy : env.yamlAvailable = false
    · rw [if_pos hy]
    · rw [if_neg hy]
      by_cases hf : env.fileExists = false
      · rw [if_pos hf]
      · rw [if_neg hf, h]

/-- Witness for C7 at a concrete environment with a malformed file. -/
theorem load_machines_fail_open_witness :
    load_machines { yamlAvailable := true, fileExists := true,
                    readResult := Except.error () } = [] :=
  load_machines_fail_open _ (Or.inr (Or.inr (Or.inl rfl)))

/-! ## Claim C9 -/

/-- C9: the statically declared profiles are strictly nested,
minimal ⊂ medium ⊂ full, and the medium profile expands to exactly
`["zsh", "vim", "tmux", "git", "editorconfig"]` with no duplicates. -/
theorem profiles_strictly_nested :
    subsetB ((profileComponents "minimal").getD []) ((profileComponents "medium").getD []) = true
    ∧ subsetB ((profileComponents "medium").getD []) ((profileComponents "minimal").getD []) = false
    ∧ subsetB ((profileComponents "medium").getD []) ((profileComponents "full").getD []) = true
    ∧ subsetB ((profileComponents "full").getD []) ((profileComponents "medium").getD []) = false
    ∧ (profileComponents "medium").getD [] = ["zsh", "vim", "tmux", "git", "editorconfig"]
    ∧ ((profileComponents "medium").getD []).Nodup := by
  refine ⟨rfl, rfl, rfl, rfl, rfl, ?_⟩
  decide

/-! ## Claim C2 -/

/-- C2: for every non-empty, duplicate-free component selection (UI selections
are sets) and every world whose spawns do not raise - covering every
combination of per-component success and failure, in particular the all-success
and all-failure stubs - the local install sequencer invokes the setup operation
once per selected component in the caller-supplied order (the invocation trace
is exactly the input list), never aborts on a `false` outcome, and returns a
result map with exactly one entry per selected component, in order, so its key
set equals the input selection set with no omissions and no extras. -/
theorem install_worker_complete (w : World) (dir mode : String) (components : List String)
    (hspawn : ∀ args, (w.spawn args).isSome = true)
    (_hne : components ≠ []) (hnd : components.Nodup) :
    install_worker w dir mode components =
      Except.ok (components.map (fun c => (c, setupOutcome w dir c mode)), components) := by
  unfold install_worker
  rw [install_worker_loop_eq w dir mode hspawn components ([], []) hnd (by simp [dictKeys])]
  rfl

/-- Witness for C2 at a concrete world and selection. -/
theorem install_worker_complete_witness :
    install_worker okWorld "/dots" "full" ["zsh", "git"] =
      Except.ok ((["zsh", "git"]).map (fun c => (c, setupOutcome okWorld "/dots" c "full")),
                 ["zsh", "git"]) :=
  install_worker_complete okWorld "/dots" "full" ["zsh", "git"]
    (fun _ => rfl) (by decide) (by decide)

/-! ## Claim C3 (corrected) -/

/-- C3 counterexample: the claim quantifies over EVERY sequencer and EVERY
input selection, but when the remote Unix sequencer's rsync step fails, the
returned result map is the sentinel `{"sync": false}`: its key `"sync"` is not
an element of the input selection `["zsh"]`, and the selected component `"zsh"`
is neither invoked (no spawn is attempted) nor given an outcome. -/
theorem sequencer_keys_counterexample :
    deploy_worker failSyncWorld mach1 ["zsh"] = ([("sync", false)], [])
    ∧ ((["zsh"] : List String).contains "sync") = false
    ∧ dictLookup [("sync", false)] "zsh" = none :=
  ⟨rfl, rfl, rfl⟩

/-- C3 amended: for every duplicate-free selection, every key of the returned
result map is an element of the input selection and each selected component
gets exactly one recorded outcome even on failure - for the local sequencer
whenever its spawns do not raise, for the remote Unix sequencer whenever the
rsync step succeeds (on sync failure the map is the sentinel `{"sync": false}`
and no component is invoked), and for the Windows sequencer for selections
drawn from its five-component catalog. -/
theorem sequencer_keys_invariant :
    (∀ (w : World) (dir mode : String) (comps : List String),
       (∀ args, (w.spawn args).isSome = true) → comps.Nodup →
       install_worker w dir mode comps =
         Except.ok (comps.map (fun c => (c, setupOutcome w dir c mode)), comps))
    ∧ (∀ (w : World) (m : Machine) (comps : List String),
       w.rsyncExit = 0 → comps.Nodup →
       (deploy_worker w m comps).1 = comps.map (fun c => (c, remoteOutcome w m c)))
    ∧ (∀ (exec : WinCmd → Bool) (extFile : Option (List String)) (comps : List String),
       comps.Nodup → (∀ c ∈ comps, c ∈ winComponentIds) →
       dictKeys (run_windows_setup exec extFile comps).1 = comps) := by
  refine ⟨?_, ?_, ?_⟩
  · intro w dir mode comps hspawn hnd
    unfold install_worker
    rw [install_worker_loop_eq w dir mode hspawn comps ([], []) hnd (by simp [dictKeys])]
    rfl
  · intro w m comps hsync hnd
    unfold deploy_worker
    rw [if_neg (by simp [hsync])]
    rw [deploy_worker_loop_fst w m comps ([], []) hnd (by simp [dictKeys])]
    rfl
  · intro exec extFile comps hnd hknown
    unfold run_windows_setup
    rw [win_loop_keys exec extFile comps ([], []) hnd hknown (by simp [dictKeys])]
    rfl

/-- Witness for the amended C3: one concrete instantiation per sequencer. -/
theorem sequencer_keys_invariant_witness :
    install_worker okWorld "/dots" "config" ["vim"] =
      Except.ok ((["vim"]).map (fun c => (c, setupOutcome okWorld "/dots" c "config")), ["vim"])
    ∧ (deploy_worker okWorld mach1 ["vim"]).1 =
        (["vim"]).map (fun c => (c, remoteOutcome okWorld mach1 c))
    ∧ dictKeys (run_windows_setup execTrue none ["debloat", "vscode"]).1 =
        ["debloat", "vscode"] :=
  ⟨sequencer_keys_invariant.1 okWorld "/dots" "config" ["vim"] (fun _ => rfl) (by decide),
   sequencer_keys_invariant.2.1 okWorld mach1 ["vim"] rfl (by decide),
   sequencer_keys_invariant.2.2 execTrue none ["debloat", "vscode"] (by decide) (by decide)⟩

/-! ## Claim C5 -/

/-- C5: for every Windows deploy run whose selection includes `debloat`,
`telemetry` or `system`, the recorded outcome for that component is `true`,
for every combination of success/failure outcomes of the constituent remote
commands (the oracle `exec` is universally quantified and the recorded value
never depends on it). -/
theorem windows_best_effort_true (exec : WinCmd → Bool) (extFile : Option (List String))
    (components : List String) (c : String)
    (hc : c = "debloat" ∨ c = "telemetry" ∨ c = "system") (hmem : c ∈ components) :
    dictLookup (run_windows_setup exec extFile components).1 c = some true := by
  have hstep : (winComponentStep exec extFile c).1 = some true := by
    rcases hc with rfl | rfl | rfl <;> rfl
  exact win_loop_lookup exec extFile c true hstep components ([], []) (Or.inl hmem)

/-- Witness for C5: all three best-effort bundles, under both the all-success
and the all-failure command oracles. -/
theorem windows_best_effort_true_witness :
    dictLookup (run_windows_setup execTrue none ["debloat", "telemetry", "system"]).1
      "debloat" = some true
    ∧ dictLookup (run_windows_setup execFalse none ["debloat", "telemetry", "system"]).1
      "telemetry" = some true
    ∧ dictLookup (run_windows_setup execFalse none ["debloat", "telemetry", "system"]).1
      "system" = some true :=
  ⟨windows_best_effort_true execTrue none ["debloat", "telemetry", "system"] "debloat"
     (Or.inl rfl) (by decide),
   windows_best_effort_true execFalse none ["debloat", "telemetry", "system"] "telemetry"
     (Or.inr (Or.inl rfl)) (by decide),
   windows_best_effort_true execFalse none ["debloat", "telemetry", "system"] "system"
     (Or.inr (Or.inr rfl)) (by decide)⟩

/-! ## Claim C6 -/

/-- C6: for every Windows deploy run whose selection includes `chrome`, the
recorded outcome for `chrome` is `true` both when the underlying winget
install command reports success and when it reports failure: the source first
records the command's result, then overwrites it with `true` on the failure
branch ("may already be installed"). -/
theorem windows_chrome_true (exec : WinCmd → Bool) (extFile : Option (List String))
    (components : List String) (hmem : "chrome" ∈ components) :
    dictLookup (run_windows_setup exec extFile components).1 "chrome" = some true := by
  have hstep : (winComponentStep exec extFile "chrome").1 = some true := by
    show some (if exec WinCmd.wingetChrome then exec WinCmd.wingetChrome else true) = some true
    cases hx : exec WinCmd.wingetChrome <;> simp [hx]
  exact win_loop_lookup exec extFile "chrome" true hstep components ([], []) (Or.inl hmem)

/-- Witness for C6: the succeeding and the failing winget command both yield a
recorded `true`. -/
theorem windows_chrome_true_witness :
    dictLookup (run_windows_setup execTrue none ["chrome"]).1 "chrome" = some true
    ∧ dictLookup (run_windows_setup execFalse none ["chrome"]).1 "chrome" = some true :=
  ⟨windows_chrome_true execTrue none ["chrome"] (by decide),
   windows_chrome_true execFalse none ["chrome"] (by decide)⟩

/-! ## Claim C4 (corrected) -/

theorem vscode_trace (exec : WinCmd → Bool) (lines : List String) :
    (run_windows_setup exec (some lines) ["vscode"]).2 =
      [WinCmd.wingetVSCode, WinCmd.mkUserDir, WinCmd.scpSettings, WinCmd.scpKeybindings]
        ++ ((parseExtensions lines).take 10).map WinCmd.installExt := rfl

theorem filter_install_of_trace (l : List String) :
    ([WinCmd.wingetVSCode, WinCmd.mkUserDir, WinCmd.scpSettings, WinCmd.scpKeybindings]
        ++ l.map WinCmd.installExt).filter WinCmd.isInstall = l.map WinCmd.installExt := by
  rw [List.filter_append]
  have h4 : ([WinCmd.wingetVSCode, WinCmd.mkUserDir, WinCmd.scpSettings,
      WinCmd.scpKeybindings]).filter WinCmd.isInstall = [] := rfl
  rw [h4, List.nil_append]
  induction l with
  | nil => rfl
  | cons x xs ih => simp [WinCmd.isInstall, ih]

/-- C4 counterexample: a concrete extensions list file with 12 entries, 2 of
them comment lines and 1 blank, has only 9 installable entries, so the Windows
`vscode` bundle issues 9 extension-install commands, not the 10 the claim
states - the ten-entry cap is never reached. -/
theorem vscode_extension_cap_counterexample :
    extFile12.length = 12
    ∧ extFile12.countP isCommentLine = 2
    ∧ extFile12.countP isBlankLine = 1
    ∧ countInstallExt (run_windows_setup execTrue (some extFile12) ["vscode"]).2 = 9
    ∧ countInstallExt (run_windows_setup execTrue (some extFile12) ["vscode"]).2 ≠ 10 := by
  refine ⟨rfl, ?_, ?_, ?_, ?_⟩ <;> decide

/-- C4 amended: given an extensions list file with 12 entries, 2 of them
comment lines and 1 blank, the Windows `vscode` bundle issues exactly 9
extension-install commands - one for each non-comment, non-blank entry, in
file order; with only 9 such entries the ten-entry cap does not bite. -/
theorem vscode_extension_cap (exec : WinCmd → Bool) (lines : List String)
    (h12 : lines.length = 12) (hcom : lines.countP isCommentLine = 2)
    (hbl : lines.countP isBlankLine = 1) :
    countInstallExt (run_windows_setup exec (some lines) ["vscode"]).2 = 9
    ∧ (run_windows_setup exec (some lines) ["vscode"]).2.filter WinCmd.isInstall
        = (parseExtensions lines).map WinCmd.installExt := by
  have hvalid : lines.countP validLine = 9 := by
    have hcc := count_classes lines
    omega
  have hlen : (parseExtensions lines).length = 9 := by
    rw [parseExtensions_length]; exact hvalid
  have htake : (parseExtensions lines).take 10 = parseExtensions lines :=
    List.take_of_length_le (by rw [hlen]; omega)
  constructor
  · unfold countInstallExt
    rw [vscode_trace, htake, filter_install_of_trace, List.length_map, hlen]
  · rw [vscode_trace, htake, filter_install_of_trace]

/-- Witness for the amended C4 at the concrete 12-line file. -/
theorem vscode_extension_cap_witness :
    countInstallExt (run_windows_setup execTrue (some extFile12) ["vscode"]).2 = 9
    ∧ (run_windows_setup execTrue (some extFile12) ["vscode"]).2.filter WinCmd.isInstall
        = (parseExtensions extFile12).map WinCmd.installExt :=
  vscode_extension_cap execTrue extFile12 rfl (by decide) (by decide)

end Installer
